import Mathlib

/-!
# Verification of the spatial_audio_server core against its specification

A shallow embedding of the three source files of the repository:

* src/lib/audio/source/wav/reader.rs — the dedicated WAV streaming thread
  (Model, Sound, PreparedBuffer, Buffer, SamplesStream, fill/read functions);
* src/lib/soundscape/mod.rs — the soundscape scheduler thread
  (Model, Soundscape handle, the message loop); and
* src/lib/gui/mod.rs — only find_speakers_in_proximity is relevant, the
  construction of the per-speaker DBAP inputs.

Machine integers (usize, u64, u32) are modelled as Nat; decoded f32
samples are carried abstractly as rationals (the decoding/normalisation
module audio/source/wav/samples.rs is not part of the given sources, so a
WAV file is embedded as the list of samples decoding would produce).
Fallible or panicking paths are modelled with Option: none is a panic
(an .expect in the source) or a non-terminating loop, as each doc string
states.  Vec allocations are given identity by a Nat tag so that reuse
of a storage allocation (not just equality of its contents) is statable.
-/

namespace SpatialAudio

/-! ## WAV reader: data model (reader.rs lines 18-138) -/

/-- hound::SampleFormat — the two WAV sample encodings. -/
inductive SampleFormat where
  | float
  | int
deriving DecidableEq

/-- The fields of hound::WavSpec the reader consults (sample_format,
bits_per_sample, channels). -/
structure WavSpec where
  sampleFormat : SampleFormat
  bitsPerSample : Nat
  channels : Nat
deriving DecidableEq

/-- An opened WAV file: its spec and the decoded, normalised sample data
(the samples the hound reader would produce in file order).  `data.length`
is `reader.len()` of hound, the total interleaved sample count. -/
structure WavFile where
  spec : WavSpec
  data : List ℚ
deriving DecidableEq

/-- hound::WavReader state: the open file and the read cursor, measured in
interleaved samples from the start of the data. -/
structure WavReaderState where
  file : WavFile
  pos : Nat
deriving DecidableEq

/-- reader.len(): total number of interleaved samples in the file. -/
def WavReaderState.lenSamples (r : WavReaderState) : Nat :=
  r.file.data.length

/-- reader.duration(): the total frame count, len / channels (hound). -/
def WavFile.duration (f : WavFile) : Nat :=
  f.data.length / f.spec.channels

/-- Modelled from the spec: super::samples::remaining (the module
audio/source/wav/samples.rs is not among the given sources) — the number
of interleaved samples left to read from the reader's cursor. -/
def samplesRemaining (r : WavReaderState) : Nat :=
  r.lenSamples - r.pos

/-- Whether the spec's encoding is one the reader supports: 32-bit float
or 8/16/32-bit signed integer PCM (the match arms of read_next_sample,
reader.rs lines 451-455). -/
def supportedSpec (spec : WavSpec) : Bool :=
  match spec.sampleFormat, spec.bitsPerSample with
  | .float, 32 => true
  | .int, 8 => true
  | .int, 16 => true
  | .int, 32 => true
  | _, _ => false

/-- read_next_sample (reader.rs lines 436-465).  For a supported encoding
the next sample is pulled from the file (none once the WAV is depleted);
for an unsupported encoding the source prints a diagnostic to stderr and
falls through to Ok(None) — zero samples, no error, no state change.
hound read errors are not modelled (the file is in memory here), so the
Result wrapper of the source is dropped. -/
def read_next_sample (r : WavReaderState) : Option (ℚ × WavReaderState) :=
  if supportedSpec r.file.spec then
    match r.file.data.get? r.pos with
    | some s => some (s, { r with pos := r.pos + 1 })
    | none => none
  else
    none

/-- read_next_sample_cycled (reader.rs lines 418-431): on a depleted read
it seeks the reader back to sample 0 and retries, forever.  The source
function is an unbounded loop; fuel counts how many reads the model is
allowed to attempt, and none means the loop did not produce a sample
within that many attempts. -/
def read_next_sample_cycled : WavReaderState → Nat → Option (ℚ × WavReaderState)
  | _, 0 => none
  | r, fuel + 1 =>
    match read_next_sample r with
    | some p => some p
    | none => read_next_sample_cycled { r with pos := 0 } fuel

/-- The non-looping arm of fill_buffer (reader.rs lines 405-412): read up
to n samples, stopping early (a short buffer) when the WAV is depleted or
the encoding is unsupported. -/
def fillNonLooped : WavReaderState → Nat → List ℚ × WavReaderState
  | r, 0 => ([], r)
  | r, n + 1 =>
    match read_next_sample r with
    | none => ([], r)
    | some (s, r') =>
      let p := fillNonLooped r' n
      (s :: p.1, p.2)

/-- The looping arm of fill_buffer (reader.rs lines 400-404): n samples,
each obtained by read_next_sample_cycled.  fuel bounds the attempts of
each cycled read; none means some cycled read never produced a sample,
i.e. the source loop hangs. -/
def fillLooped : WavReaderState → Nat → Nat → Option (List ℚ × WavReaderState)
  | r, 0, _ => some ([], r)
  | r, n + 1, fuel =>
    match read_next_sample_cycled r fuel with
    | none => none
    | some (s, r') => (fillLooped r' n fuel).map (fun p => (s :: p.1, p.2))

/-- fill_buffer (reader.rs lines 391-414): clears the given samples Vec
and reads FRAMES_PER_BUFFER * channels samples into it.  The constant
audio::FRAMES_PER_BUFFER lives outside the given sources, so it is a
parameter fpb here.  The incoming Vec's contents are discarded
(samples.clear()), so only its allocation identity matters to callers. -/
def fill_buffer (fpb : Nat) (r : WavReaderState) (looped : Bool) (fuel : Nat) :
    Option (List ℚ × WavReaderState) :=
  let numSamples := fpb * r.file.spec.channels
  if looped then fillLooped r numSamples fuel
  else some (fillNonLooped r numSamples)

/-- PreparedBuffer (reader.rs lines 77-82): an owned samples Vec (tag is
the identity of its allocation) plus the range of WAV sample indices it
covers. -/
structure PreparedBuffer where
  tag : Nat
  samples : List ℚ
  rangeStart : Nat
  rangeStop : Nat
deriving DecidableEq

/-- Buffer (reader.rs lines 102-108): what the reader thread sends to the
consumer-side SamplesStream — the samples Vec (same allocation as the
PreparedBuffer it came from, hence the same tag), the owning sound id and
the range metadata.  The reader_tx back-channel is modelled by the
droppedTags log of the consumer state. -/
structure Buffer where
  tag : Nat
  samples : List ℚ
  soundId : Nat
  rangeStart : Nat
  rangeStop : Nat
deriving DecidableEq

/-- Sound (reader.rs lines 60-73): per-sound state on the reader thread —
the WAV reader, the FIFO of prepared buffers (front at the head), and the
loop flag.  The buffer_tx channel is represented by next_buffer returning
the buffer it sends. -/
structure Sound where
  reader : WavReaderState
  queue : List PreparedBuffer
  looped : Bool
deriving DecidableEq

/-- NUM_BUFFERS (reader.rs line 20): the look-ahead depth. -/
def NUM_BUFFERS : Nat := 16

/-- The reader-thread Model (reader.rs lines 45-54): the map of active
sounds, as an association list for FxHashMap with distinct keys. -/
structure RModel where
  sounds : List (Nat × Sound)
deriving DecidableEq

/-- Association-list lookup (HashMap::get). -/
def alookup {β : Type} : List (Nat × β) → Nat → Option β
  | [], _ => none
  | (k, v) :: rest, id => if k = id then some v else alookup rest id

/-- Association-list insert-or-replace (HashMap::insert). -/
def aupdate {β : Type} : List (Nat × β) → Nat → β → List (Nat × β)
  | [], k, v => [(k, v)]
  | (k', v') :: rest, k, v =>
    if k' = k then (k, v) :: rest else (k', v') :: aupdate rest k v

/-! ## WAV reader: operations (reader.rs lines 140-177 and 286-497) -/

/-- The front-popping send of Model::next_buffer (reader.rs lines
369-375): the FIFO front leaves as a Buffer for the consumer (an empty
FIFO sends nothing), and the rest stays. -/
def nb_send (sid : Nat) (sound : Sound) : Option Buffer × List PreparedBuffer :=
  match sound.queue with
  | [] => (none, [])
  | pb :: rest => (some ⟨pb.tag, pb.samples, sid, pb.rangeStart, pb.rangeStop⟩, rest)

/-- The per-sound body of Model::next_buffer once the sound is found:
pop and send the FIFO front (nb_send), refill the returned storage (tag)
from the reader, and enqueue it at the back with the covered sample
range. -/
def Sound.refill (fpb : Nat) (sid : Nat) (sound : Sound) (tag fuel : Nat) :
    Option (Sound × Option Buffer) :=
  let wavLen := sound.reader.lenSamples
  let front := nb_send sid sound
  let start := wavLen - samplesRemaining sound.reader
  match fill_buffer fpb sound.reader sound.looped fuel with
  | none => none
  | some (samples, r') =>
    let stop := wavLen - samplesRemaining r'
    some ({ reader := r'
            queue := front.2 ++ [⟨tag, samples, start, stop⟩]
            looped := sound.looped },
          front.1)

/-- Model::next_buffer (reader.rs lines 346-386).  Looks the sound up
(an unknown id is Ok and changes nothing, so a ProcessedBuffer for an
ended sound is silently discarded), sends the front of the FIFO to the
consumer, then refills the returned storage (tag) from the reader and
enqueues it at the back.  Returns the new model and the buffer sent, or
none when fill_buffer fails — in the source that propagates a
hound::Error, on which run() panics with "failed to process next
buffer" (the sent front is then lost with the thread). -/
def RModel.next_buffer (fpb : Nat) (m : RModel) (sid : Nat) (tag : Nat) (fuel : Nat) :
    Option (RModel × Option Buffer) :=
  match alookup m.sounds sid with
  | none => some (m, none)
  | some sound =>
    match Sound.refill fpb sid sound tag fuel with
    | none => none
    | some (sound', sent) => some (⟨aupdate m.sounds sid sound'⟩, sent)

/-- The seek of Model::play_sound (reader.rs lines 307-310): frames :=
start_frame % reader.duration(), then reader.seek(frames), which places
the cursor at frames * channels interleaved samples.  In Rust the %
panics when duration() is 0 (an empty WAV), modelled as none. -/
def seek_to_start (file : WavFile) (startFrame : Nat) : Option WavReaderState :=
  if file.duration = 0 then none
  else some ⟨file, (startFrame % file.duration) * file.spec.channels⟩

/-- The buffer-preparing loop of Model::play_sound (reader.rs lines
314-324): n fresh Vecs (tags tag0, tag0+1, ...), each filled from the
reader, with the covered sample range recorded around each fill.  none
models the .expect("failed to fill buffer") panic. -/
def prepare_buffers (fpb : Nat) :
    WavReaderState → Bool → Nat → Nat → Nat → Option (List PreparedBuffer × WavReaderState)
  | r, _, _, 0, _ => some ([], r)
  | r, looped, tag0, n + 1, fuel =>
    let wavLen := r.lenSamples
    let start := wavLen - samplesRemaining r
    match fill_buffer fpb r looped fuel with
    | none => none
    | some (samples, r') =>
      let stop := wavLen - samplesRemaining r'
      (prepare_buffers fpb r' looped (tag0 + 1) n fuel).map
        (fun p => (⟨tag0, samples, start, stop⟩ :: p.1, p.2))

/-- The initial-send loop of Model::play_sound (reader.rs lines 335-337):
n calls of next_buffer, each with a fresh empty Vec (vec![], tags tag0,
tag0+1, ...), collecting the buffers delivered to the consumer.  none
models the .expect("failed to send initial buffer") panic. -/
def send_initial (fpb : Nat) :
    RModel → Nat → Nat → Nat → Nat → Option (RModel × List Buffer)
  | m, _, _, 0, _ => some (m, [])
  | m, sid, tag0, n + 1, fuel =>
    match RModel.next_buffer fpb m sid tag0 fuel with
    | none => none
    | some (m', sent) =>
      (send_initial fpb m' sid (tag0 + 1) n fuel).map
        (fun p => (p.1, sent.toList ++ p.2))

/-- Model::play_sound (reader.rs lines 297-338): seek to the wrapped
start frame, prepare NUM_BUFFERS buffers, insert the sound, then send
the first NUM_BUFFERS buffers off (each send refilling a fresh empty
Vec at the back).  Returns the new model and the buffers delivered to
the consumer, in order. -/
def RModel.play_sound (fpb : Nat) (m : RModel) (sid : Nat) (file : WavFile)
    (startFrame : Nat) (looped : Bool) (tag0 fuel : Nat) :
    Option (RModel × List Buffer) :=
  match seek_to_start file startFrame with
  | none => none
  | some r0 =>
    match prepare_buffers fpb r0 looped tag0 NUM_BUFFERS fuel with
    | none => none
    | some (bufs, r1) =>
      let sound : Sound := { reader := r1, queue := bufs, looped := looped }
      send_initial fpb ⟨aupdate m.sounds sid sound⟩ sid (tag0 + NUM_BUFFERS) NUM_BUFFERS fuel

/-- A fold of Model::next_buffer over a sequence of
ProcessedBuffer(sound_id, storage-tag) messages, as run() (reader.rs
lines 490-493) handles them one after the other. -/
def processed_fold (fpb : Nat) : RModel → List (Nat × Nat) → Nat → Option RModel
  | m, [], _ => some m
  | m, (sid, tag) :: rest, fuel =>
    match RModel.next_buffer fpb m sid tag fuel with
    | none => none
    | some (m', _) => processed_fold fpb m' rest fuel

/-- The FIFO depth of the sound with the given id, when present. -/
def queueLen (m : RModel) (id : Nat) : Option Nat :=
  (alookup m.sounds id).map (fun s => s.queue.length)

/-! ## Consumer side: SamplesStream (reader.rs lines 129-138 and 197-277) -/

/-- SamplesStream (reader.rs lines 130-138), together with the state of
its buffer channel.  channelQueue holds the buffers sent but not yet
received, in order; channelOpen records whether the sending side still
exists (mpsc distinguishes TryRecvError::Empty from Disconnected, but
the source matches both with Err(_)).  droppedTags logs the
ProcessedBuffer messages that Buffer::drop (reader.rs lines 186-195)
sends back to the reader thread. -/
structure SamplesStream where
  channelQueue : List Buffer
  channelOpen : Bool
  buffer : Option Buffer
  bufferIndex : Nat
  wavChannels : Nat
  wavLenSamples : Nat
  wavLooped : Bool
  droppedTags : List Nat
deriving DecidableEq

/-- SamplesStream::new (reader.rs lines 198-212): a fresh stream bound to
a fresh, empty, open channel. -/
def SamplesStream.new (channels lenSamples : Nat) (looped : Bool) : SamplesStream :=
  { channelQueue := []
    channelOpen := true
    buffer := none
    bufferIndex := 0
    wavChannels := channels
    wavLenSamples := lenSamples
    wavLooped := looped
    droppedTags := [] }

/-- The receive loop inside next_sample once the current buffer is gone:
try_recv; on Err (empty or closed alike) return none; on a buffer, reset
the index and retry from its first sample, dropping the buffer (which
sends its tag back) if it is empty.  idx is the buffer_index left behind
when try_recv fails, which the source does not reset on that path. -/
def recvLoop : List Buffer → List Nat → Nat →
    Option ℚ × Option Buffer × Nat × List Buffer × List Nat
  | [], dropped, idx => (none, none, idx, [], dropped)
  | b :: rest, dropped, _ =>
    match b.samples.get? 0 with
    | some s => (some s, some b, 1, rest, dropped)
    | none => recvLoop rest (dropped ++ [b.tag]) 0

/-- SamplesStream::next_sample (reader.rs lines 241-276): yield the next
sample of the held buffer; otherwise drop the held buffer (sending its
storage back as a ProcessedBuffer) and pull the next buffer from the
channel, returning none as soon as try_recv yields no buffer. -/
def SamplesStream.next_sample (s : SamplesStream) : Option ℚ × SamplesStream :=
  match s.buffer with
  | some b =>
    match b.samples.get? s.bufferIndex with
    | some smp => (some smp, { s with bufferIndex := s.bufferIndex + 1 })
    | none =>
      match recvLoop s.channelQueue (s.droppedTags ++ [b.tag]) s.bufferIndex with
      | (res, buf, idx, q, d) =>
        (res,
          { s with
            buffer := buf
            bufferIndex := idx
            channelQueue := q
            droppedTags := d })
  | none =>
    match recvLoop s.channelQueue s.droppedTags s.bufferIndex with
    | (res, buf, idx, q, d) =>
      (res,
        { s with
          buffer := buf
          bufferIndex := idx
          channelQueue := q
          droppedTags := d })

/-- SamplesStream::remaining_frames (reader.rs lines 220-238): none for a
looping stream; otherwise frames left from the held (or next received)
buffer's start index and the cursor; when try_recv yields nothing it
returns Some(wav_len_samples) — the raw sample count. -/
def SamplesStream.remaining_frames (s : SamplesStream) : Option Nat × SamplesStream :=
  if s.wavLooped then (none, s)
  else
    match s.buffer with
    | some b =>
      (some ((s.wavLenSamples - (b.rangeStart + s.bufferIndex)) / s.wavChannels), s)
    | none =>
      match s.channelQueue with
      | [] => (some s.wavLenSamples, s)
      | b :: rest =>
        (some ((s.wavLenSamples - (b.rangeStart + s.bufferIndex)) / s.wavChannels),
         { s with buffer := some b, channelQueue := rest })

/-! ## Handle::play (reader.rs lines 145-163) -/

/-- The Play message (reader.rs lines 118-127) as delivered to the reader
thread. -/
structure PlayMsg where
  file : WavFile
  startFrame : Nat
  looped : Bool
deriving DecidableEq

/-- What a call to Handle::play does from the caller's point of view:
return normally with a stream, return the one error result the signature
allows (SendError, when the reader thread has exited), or panic. -/
inductive PlayOutcome where
  | panicked
  | ok (stream : SamplesStream)
  | sendErr
deriving DecidableEq

/-- Handle::play (reader.rs lines 145-163).  openResult is the outcome of
WavReader::open on the path: none (the file cannot be opened or parsed)
hits .expect("failed to read wav file") — a panic, before any message is
sent, so the reader thread's model is untouched and other sounds are
unaffected.  With an open file, a stream over a fresh channel is built
and a Play message is sent; if the reader thread is gone the send fails
and Err(SendError(())) is returned, with no message delivered. -/
def Handle.play (openResult : Option WavFile) (readerAlive : Bool)
    (startFrame : Nat) (looped : Bool) : PlayOutcome × Option PlayMsg :=
  match openResult with
  | none => (.panicked, none)
  | some f =>
    let stream := SamplesStream.new f.spec.channels f.data.length looped
    if readerAlive then (.ok stream, some ⟨f, startFrame, looped⟩)
    else (.sendErr, none)

/-! ## Soundscape scheduler (soundscape/mod.rs) -/

/-- soundscape::Source (mod.rs lines 64-69).  kind (an
audio::source::Kind, defined outside the given sources) is carried as an
opaque Nat; installations are zone identifiers. -/
structure SSSource where
  kind : Nat
  installations : List Nat
  spread : ℚ
  radians : ℚ
deriving DecidableEq

/-- soundscape::Speaker (mod.rs lines 56-61). -/
structure SSSpeaker where
  point : ℚ × ℚ
  installations : List Nat
deriving DecidableEq

/-- soundscape::ActiveSound (mod.rs lines 72-81).  handleSourceId is
s.handle.source_id(): the id of the Source the sound was spawned from,
read off the audio::sound::Handle (an accessor defined outside the given
sources). -/
structure SSActiveSound where
  point : ℚ × ℚ
  directionRadians : ℚ
  handleSourceId : Nat
deriving DecidableEq

/-- soundscape::Model (mod.rs lines 84-99): the three maps the scheduler
thread owns, as association lists.  The remaining fields (the output
stream handle, id generator, ticker handle) carry no state the claims
touch. -/
structure SSModel where
  sources : List (Nat × SSSource)
  speakers : List (Nat × SSSpeaker)
  activeSounds : List (Nat × SSActiveSound)
deriving DecidableEq

/-- Association-list removal (HashMap::remove's effect on the map). -/
def aremove {β : Type} : List (Nat × β) → Nat → List (Nat × β)
  | [], _ => []
  | (k, v) :: rest, id => if k = id then rest else (k, v) :: aremove rest id

/-- Model::remove_source (mod.rs lines 226-229): retain every active
sound whose handle's source id differs from the removed id, then remove
and return the source itself (none when the id was unknown).  Total — no
panic on a missing id. -/
def SSModel.remove_source (m : SSModel) (id : Nat) : Option SSSource × SSModel :=
  let actives := m.activeSounds.filter (fun p => !(id == p.2.handleSourceId))
  (alookup m.sources id,
    { m with activeSounds := actives, sources := aremove m.sources id })

/-- The soundscape thread's message kinds (mod.rs lines 14-25).  An
Update carries the caller's mutation of the model, as UpdateFn does. -/
inductive SSMessage where
  | update (f : SSModel → SSModel)
  | tick
  | play
  | pause
  | exit

/-- One turn of the receive loop run (mod.rs lines 323-351): an Update
runs its function to completion; tick(model, t) (line 354) has an empty
body; Play and Pause only forward to each active sound's output-stream
handle, leaving the model unchanged; Exit breaks the loop (none). -/
def ss_step (m : SSModel) (msg : SSMessage) : Option SSModel :=
  match msg with
  | .update f => some (f m)
  | .tick => some m
  | .play => some m
  | .pause => some m
  | .exit => none

/-- run (mod.rs lines 323-351): messages are consumed strictly in order,
each processed to completion before the next; Exit stops the loop with
the model as it stands. -/
def ss_run : SSModel → List SSMessage → SSModel
  | m, [] => m
  | m, msg :: rest =>
    match ss_step m msg with
    | none => m
    | some m' => ss_run m' rest

/-- Soundscape::pause (mod.rs lines 155-160): reads the shared playing
flag into result := !is_playing() != false, stores false into the flag
unconditionally (before the send), then sends Pause and maps the send's
outcome.  Returns (what the caller gets, the flag's new value). -/
def Soundscape.pause (isPlaying : Bool) (sendOk : Bool) : Except Unit Bool × Bool :=
  let result := (!isPlaying) != false
  ((if sendOk then Except.ok result else Except.error ()), false)

/-- Soundscape::play (mod.rs lines 163-168): result := is_playing() !=
true, stores true unconditionally, sends Play and maps the send. -/
def Soundscape.play (isPlaying : Bool) (sendOk : Bool) : Except Unit Bool × Bool :=
  let result := isPlaying != true
  ((if sendOk then Except.ok result else Except.error ()), true)

/-! ## Spatialization (DBAP)

gui/mod.rs's find_speakers_in_proximity (lines 1489-1532) builds, for
each speaker, a pair of a blurred distance and a zone weight and hands
them to audio::dbap::SpeakerGains.  The audio::dbap and audio::speaker
modules are not among the given sources, so their arithmetic is modelled
from the spec (§4.4), over ℚ and with squared gains so the development
stays computable: the gain of speaker i is proportional to
weight_i / blurred_distance_i ^ a (a the rolloff-derived exponent), and
the vector is normalised so the squared gains sum to one. -/

/-- The per-speaker input of the DBAP gain computation, as
find_speakers_in_proximity builds it: a (squared, blurred) distance and
a zone weight. -/
structure DbapSpeaker where
  distance : ℚ
  weight : ℚ
deriving DecidableEq

/-- Modelled from the spec: audio::dbap::blurred_distance_2 — the square
of the blurred distance sqrt(dist² + blur²) between the channel point and
a speaker point, i.e. dist² + blur². -/
def blurred_distance_2 (p q : ℚ × ℚ) (blur : ℚ) : ℚ :=
  (p.1 - q.1) ^ 2 + (p.2 - q.2) ^ 2 + blur ^ 2

/-- Modelled from the spec: audio::speaker::dbap_weight — full weight (1)
when the speaker serves any zone the sound targets, zero otherwise. -/
def dbap_weight (soundZones speakerZones : List Nat) : ℚ :=
  if soundZones.any (fun z => speakerZones.contains z) then 1 else 0

/-- The dbap_speakers construction of find_speakers_in_proximity
(gui/mod.rs lines 1501-1523): each speaker of the layout paired with its
blurred distance from the channel point and its zone weight. -/
def mk_dbap_speakers (channelPoint : ℚ × ℚ) (soundZones : List Nat)
    (layout : List ((ℚ × ℚ) × List Nat)) (blur : ℚ) : List DbapSpeaker :=
  layout.map (fun sp => ⟨blurred_distance_2 channelPoint sp.1 blur,
                         dbap_weight soundZones sp.2⟩)

/-- Modelled from the spec: the squared unnormalised gain (the radiated
power) of one speaker, (weight / blurred_distance ^ a)², computed on the
squared distance: weight² / (blurred_distance²) ^ a. -/
def speaker_power (a : Nat) (s : DbapSpeaker) : ℚ :=
  s.weight ^ 2 / s.distance ^ a

/-- Modelled from the spec: the total radiated power before
normalisation. -/
def total_power (a : Nat) (speakers : List DbapSpeaker) : ℚ :=
  (speakers.map (speaker_power a)).sum

/-- Modelled from the spec: audio::dbap::SpeakerGains — the squared
normalised gains, each speaker's power divided by the total so the
squared gains sum to one. -/
def speaker_gains_2 (a : Nat) (speakers : List DbapSpeaker) : List ℚ :=
  speakers.map (fun s => speaker_power a s / total_power a speakers)

/-! ## Concrete inputs used by the witnesses and counterexamples -/

/-- A one-sample mono 16-bit WAV: the smallest file play_sound accepts
(duration 1 frame). -/
def demoFile : WavFile := ⟨⟨.int, 16, 1⟩, [0]⟩

/-- A 3-frame mono 16-bit WAV, for the seek-wrapping witness. -/
def demoFile3 : WavFile := ⟨⟨.int, 16, 1⟩, [0, 0, 0]⟩

/-- A WAV whose header parses but which holds no samples: duration 0. -/
def emptyWav : WavFile := ⟨⟨.int, 16, 2⟩, []⟩

/-- A reader over a mono WAV with an unsupported 24-bit integer
encoding. -/
def r24 : WavReaderState := ⟨⟨⟨.int, 24, 1⟩, [1, 0]⟩, 0⟩

/-- A prepared buffer with a distinguishable storage tag. -/
def demoPB (i : Nat) : PreparedBuffer := ⟨100 + i, [0], 0, 1⟩

/-- A sound mid-playback whose FIFO holds 16 buffers tagged 100..115. -/
def demoSound : Sound :=
  { reader := ⟨demoFile, 1⟩
    queue := [demoPB 0, demoPB 1, demoPB 2, demoPB 3, demoPB 4, demoPB 5,
              demoPB 6, demoPB 7, demoPB 8, demoPB 9, demoPB 10, demoPB 11,
              demoPB 12, demoPB 13, demoPB 14, demoPB 15]
    looped := false }

/-- A reader model holding demoSound under sound id 7. -/
def demoRM : RModel := ⟨[(7, demoSound)]⟩

/-- A consumer stream over a looping WAV whose channel is open but
momentarily empty, no buffer held. -/
def sOpenEmpty : SamplesStream := SamplesStream.new 1 10 true

/-- A consumer stream over a non-looping stereo WAV of 88 interleaved
samples (44 frames), before any buffer has arrived. -/
def demoStereo : SamplesStream := SamplesStream.new 2 88 false

/-- Two speakers, one serving zone 1 (which the sound targets) and one
serving only zone 2. -/
def demoLayout : List ((ℚ × ℚ) × List Nat) := [((3, 4), [1]), ((1, 0), [2])]

/-- The current buffer (if any) yields no sample at the cursor — the
state in which next_sample must pull from the channel. -/
def bufferExhausted (s : SamplesStream) : Prop :=
  match s.buffer with
  | some b => b.samples.get? s.bufferIndex = none
  | none => True

/-- The looped fill loop produces no result however many read attempts
it is granted: the source's unbounded loop never returns. -/
def loopedFillNeverReturns (r : WavReaderState) (n : Nat) : Prop :=
  ∀ fuel, fillLooped r n fuel = none

/-! ## Helper lemmas -/

theorem alookup_aupdate_self {β : Type} (l : List (Nat × β)) (k : Nat) (v : β) :
    alookup (aupdate l k v) k = some v := by
  induction l with
  | nil => simp [aupdate, alookup]
  | cons hd tl ih =>
    obtain ⟨k', v'⟩ := hd
    by_cases h : k' = k
    · simp [aupdate, alookup, h]
    · simp [aupdate, alookup, h, ih]

theorem alookup_aupdate_ne {β : Type} (l : List (Nat × β)) (k k' : Nat) (v : β)
    (h : k' ≠ k) : alookup (aupdate l k v) k' = alookup l k' := by
  have hk : k ≠ k' := Ne.symm h
  induction l with
  | nil => simp [aupdate, alookup, hk]
  | cons hd tl ih =>
    obtain ⟨k0, v0⟩ := hd
    by_cases h0 : k0 = k
    · subst h0
      simp [aupdate, alookup, hk]
    · simp [aupdate, alookup, h0, ih]

theorem nb_send_cons (sid : Nat) (sound : Sound) (pb : PreparedBuffer)
    (rest : List PreparedBuffer) (hq : sound.queue = pb :: rest) :
    nb_send sid sound
      = (some ⟨pb.tag, pb.samples, sid, pb.rangeStart, pb.rangeStop⟩, rest) := by
  simp [nb_send, hq]

theorem refill_eq (fpb sid : Nat) (sound : Sound) (tag fuel : Nat)
    (samples : List ℚ) (r' : WavReaderState)
    (hf : fill_buffer fpb sound.reader sound.looped fuel = some (samples, r')) :
    Sound.refill fpb sid sound tag fuel =
      some ({ reader := r'
              queue := (nb_send sid sound).2
                ++ [⟨tag, samples,
                     sound.reader.lenSamples - samplesRemaining sound.reader,
                     sound.reader.lenSamples - samplesRemaining r'⟩]
              looped := sound.looped },
            (nb_send sid sound).1) := by
  simp [Sound.refill, hf]

theorem refill_none (fpb sid : Nat) (sound : Sound) (tag fuel : Nat)
    (hf : fill_buffer fpb sound.reader sound.looped fuel = none) :
    Sound.refill fpb sid sound tag fuel = none := by
  simp [Sound.refill, hf]

theorem next_buffer_lookup_none (fpb : Nat) (m : RModel) (sid tag fuel : Nat)
    (h : alookup m.sounds sid = none) :
    RModel.next_buffer fpb m sid tag fuel = some (m, none) := by
  simp [RModel.next_buffer, h]

theorem next_buffer_refill_none (fpb : Nat) (m : RModel) (sid tag fuel : Nat)
    (sound : Sound) (h : alookup m.sounds sid = some sound)
    (hr : Sound.refill fpb sid sound tag fuel = none) :
    RModel.next_buffer fpb m sid tag fuel = none := by
  simp [RModel.next_buffer, h, hr]

theorem next_buffer_refill_some (fpb : Nat) (m : RModel) (sid tag fuel : Nat)
    (sound sound' : Sound) (sent : Option Buffer)
    (h : alookup m.sounds sid = some sound)
    (hr : Sound.refill fpb sid sound tag fuel = some (sound', sent)) :
    RModel.next_buffer fpb m sid tag fuel
      = some (⟨aupdate m.sounds sid sound'⟩, sent) := by
  simp [RModel.next_buffer, h, hr]

/-! ## C1 — Handle::play and an unopenable file -/

/-- C1, as amended: when the WAV file cannot be opened or parsed,
Handle::play panics (the .expect at reader.rs line 154) instead of
returning an error result; the panic happens before any message is sent,
so no worker state is created and other sounds are unaffected.  With an
open file the call returns the fresh stream, and the only error result
it can return is a SendError, when the reader thread has already
exited — in which case no message is delivered either. -/
theorem play_open_failure_panics :
    ∀ (alive : Bool) (start : Nat) (looped : Bool) (f : WavFile),
      Handle.play none alive start looped = (.panicked, none)
      ∧ Handle.play (some f) true start looped =
          (.ok (SamplesStream.new f.spec.channels f.data.length looped),
           some ⟨f, start, looped⟩)
      ∧ Handle.play (some f) false start looped = (.sendErr, none) := by
  intro alive start looped f
  exact ⟨rfl, rfl, rfl⟩

/-- C1, counterexample to the claim as stated: a failing open makes
Handle::play panic, which is not an error result (neither the Ok nor the
Err return of the function). -/
theorem play_open_failure_not_error_result :
    Handle.play none true 0 false = (.panicked, none)
    ∧ (∀ s : SamplesStream, PlayOutcome.panicked ≠ .ok s)
    ∧ PlayOutcome.panicked ≠ .sendErr :=
  ⟨rfl, fun _ h => PlayOutcome.noConfusion h, fun h => PlayOutcome.noConfusion h⟩

/-! ## C5 — seek wraps modulo the total frame count -/

/-- C5, as amended: provided the file holds at least one frame,
play_sound's seek (reader.rs lines 307-310) places the reader at
start_frame % duration frames — in range, wrapping any out-of-range
start without error.  (For a zero-frame file the modulo in the source is
a division by zero, a panic; see the counterexample.) -/
theorem seek_wraps_modulo :
    ∀ (file : WavFile) (start : Nat), 0 < file.duration →
      seek_to_start file start
          = some ⟨file, (start % file.duration) * file.spec.channels⟩
      ∧ start % file.duration < file.duration := by
  intro file start h
  refine ⟨?_, Nat.mod_lt _ h⟩
  simp [seek_to_start, Nat.pos_iff_ne_zero.mp h]

/-- C5, witness: a 3-frame file and start_frame 7 seek to frame 7 % 3 =
1. -/
theorem seek_wraps_modulo_witness :
    0 < demoFile3.duration
    ∧ seek_to_start demoFile3 7 = some ⟨demoFile3, 1⟩
    ∧ 7 % demoFile3.duration < demoFile3.duration := by
  have h := seek_wraps_modulo demoFile3 7 (by decide)
  exact ⟨by decide, h.1, h.2⟩

/-- C5, counterexample to the claim as stated: on a parsed WAV with zero
frames, start_frame % duration is a division by zero — play_sound
panics, so seeking does not succeed for every start request. -/
theorem seek_empty_file_panics : seek_to_start emptyWav 5 = none := rfl

/-! ## C8 — remove_source retires the source's active sounds -/

/-- C8 (confirmed): Model::remove_source (soundscape/mod.rs lines
226-229) leaves no active sound spawned from the removed source id,
returns the removed Source (none when the id was unknown) without
panicking, and an Update carrying it runs to completion within one
processing step of run — before any subsequent message, a Tick
included. -/
theorem remove_source_retires_active_sounds :
    ∀ (m : SSModel) (id : Nat) (rest : List SSMessage),
      (∀ p ∈ (SSModel.remove_source m id).2.activeSounds, p.2.handleSourceId ≠ id)
      ∧ (SSModel.remove_source m id).1 = alookup m.sources id
      ∧ (alookup m.sources id = none → (SSModel.remove_source m id).1 = none)
      ∧ ss_run m (SSMessage.update (fun mm => (SSModel.remove_source mm id).2) :: rest)
          = ss_run (SSModel.remove_source m id).2 rest := by
  intro m id rest
  refine ⟨?_, rfl, fun h => h, rfl⟩
  intro p hp
  have h2 : ¬(id = p.2.handleSourceId) := by
    simpa using (List.mem_filter.mp hp).2
  exact fun hh => h2 hh.symm

/-! ## C10 — the pause/play flag protocol -/

/-- C10 (confirmed): Soundscape::pause stores false into the shared
playing flag unconditionally and, when its send succeeds, returns Ok(b)
with b true exactly when the flag was false (already paused) before the
call; Soundscape::play stores true and returns Ok(true) exactly when the
flag was false before the call. -/
theorem pause_play_flag_semantics :
    ∀ (flag sendOk : Bool),
      (Soundscape.pause flag sendOk).2 = false
      ∧ (Soundscape.play flag sendOk).2 = true
      ∧ ((Soundscape.pause flag true).1 = Except.ok true ↔ flag = false)
      ∧ ((Soundscape.play flag true).1 = Except.ok true ↔ flag = false) := by
  intro flag sendOk
  cases flag <;> cases sendOk <;> simp [Soundscape.pause, Soundscape.play]

/-! ## C6 — remaining_frames and its no-buffer fallback -/

/-- C6 (code bug): remaining_frames is none exactly for a looping
stream, and with a buffer held it returns (wav_len_samples - (range
start + cursor)) / channels, as the claim says; but on the no-buffer,
empty-channel path (reader.rs line 234) it returns wav_len_samples — the
raw interleaved sample count — as the frame count.  For the 44-frame
stereo stream demoStereo that is 88, double the full file length the
function's own doc string ("The number of frames remaining in the
stream") promises. -/
theorem remaining_frames_fallback_reports_samples :
    (demoStereo.remaining_frames).1 = some 88
    ∧ demoStereo.wavLenSamples / demoStereo.wavChannels = 44
    ∧ (88 : Nat) ≠ 44
    ∧ (∀ (s : SamplesStream) (b : Buffer), s.wavLooped = false → s.buffer = some b →
        (s.remaining_frames).1
          = some ((s.wavLenSamples - (b.rangeStart + s.bufferIndex)) / s.wavChannels))
    ∧ (∀ s : SamplesStream, (s.remaining_frames).1 = none ↔ s.wavLooped = true) := by
  refine ⟨rfl, rfl, by decide, ?_, ?_⟩
  · intro s b hl hb
    simp [SamplesStream.remaining_frames, hl, hb]
  · intro s
    by_cases hl : s.wavLooped
    · simp [SamplesStream.remaining_frames, hl]
    · cases hb : s.buffer with
      | some b => simp [SamplesStream.remaining_frames, hl, hb]
      | none =>
        cases hq : s.channelQueue with
        | nil => simp [SamplesStream.remaining_frames, hl, hb, hq]
        | cons b rest => simp [SamplesStream.remaining_frames, hl, hb, hq]

/-! ## C4 — next_sample and channel exhaustion -/

theorem recvLoop_none_iff (q : List Buffer) (d : List Nat) (i : Nat) :
    (recvLoop q d i).1 = none ↔ ∀ b ∈ q, b.samples = [] := by
  induction q generalizing d i with
  | nil => simp [recvLoop]
  | cons b rest ih =>
    cases hb : b.samples[0]? with
    | some s =>
      have hne : b.samples ≠ [] := by
        intro he
        rw [he] at hb
        simp at hb
      simp [recvLoop, hb, hne]
    | none =>
      have hbe : b.samples = [] := by
        cases hs : b.samples with
        | nil => rfl
        | cons x xs =>
          rw [hs] at hb
          simp at hb
      simp [recvLoop, hb, ih, hbe]

/-- C4, as amended: next_sample returns none exactly when the held
buffer is exhausted and the channel holds no buffer with samples —
irrespective of whether the channel is closed (the source matches
try_recv's Err(_) without distinguishing Empty from Disconnected,
reader.rs line 268).  A momentary absence of a ready buffer on an open
channel therefore also yields none, indistinguishable from
end-of-stream, and a looping stream's next_sample returns none whenever
the consumer outruns the reader.  The call never blocks: it is a total
function of the state. -/
theorem next_sample_none_iff_exhausted :
    ∀ s : SamplesStream,
      ((s.next_sample).1 = none
        ↔ bufferExhausted s ∧ ∀ b ∈ s.channelQueue, b.samples = []) := by
  intro s
  obtain ⟨q, co, buf, idx, ch, len, lp, dr⟩ := s
  cases buf with
  | none =>
    simpa [SamplesStream.next_sample, bufferExhausted] using recvLoop_none_iff q dr idx
  | some b =>
    cases hb : b.samples[idx]? with
    | some smp => simp [SamplesStream.next_sample, bufferExhausted, hb]
    | none =>
      simpa [SamplesStream.next_sample, bufferExhausted, hb]
        using recvLoop_none_iff q (dr ++ [b.tag]) idx

/-- C4, counterexample to the claim as stated: on a looping stream whose
channel is open but momentarily empty, next_sample returns none — so
none is not reserved for a closed channel, and a looping stream can
observe none. -/
theorem next_sample_none_open_channel :
    (sOpenEmpty.next_sample).1 = none
    ∧ sOpenEmpty.channelOpen = true
    ∧ sOpenEmpty.wavLooped = true :=
  ⟨rfl, rfl, rfl⟩

/-! ## C7 — unsupported encodings: degraded for non-looping, hang for looping -/

theorem read_next_sample_unsupported (r : WavReaderState)
    (h : supportedSpec r.file.spec = false) : read_next_sample r = none := by
  simp [read_next_sample, h]

theorem cycled_unsupported :
    ∀ (fuel : Nat) (r : WavReaderState), supportedSpec r.file.spec = false →
      read_next_sample_cycled r fuel = none := by
  intro fuel
  induction fuel with
  | zero => intro r _; rfl
  | succ n ih =>
    intro r h
    have hr : read_next_sample r = none := read_next_sample_unsupported r h
    simp only [read_next_sample_cycled, hr]
    exact ih _ h

theorem fillNonLooped_unsupported (r : WavReaderState)
    (h : supportedSpec r.file.spec = false) :
    ∀ n, fillNonLooped r n = ([], r) := by
  intro n
  cases n with
  | zero => rfl
  | succ k => simp [fillNonLooped, read_next_sample_unsupported r h]

theorem fillLooped_unsupported (r : WavReaderState)
    (h : supportedSpec r.file.spec = false) (n fuel : Nat) :
    fillLooped r (n + 1) fuel = none := by
  simp [fillLooped, cycled_unsupported fuel r h]

/-- C7, as amended: an unsupported sample encoding yields zero samples
from every read and is only a stderr diagnostic — for a non-looping
sound the fill returns normally with an empty (short) buffer and nothing
is terminated; but for a looping sound read_next_sample_cycled seeks to
0 and retries forever, so the fill never returns and the reader thread
hangs. -/
theorem unsupported_encoding_degrades :
    ∀ (fpb : Nat) (r : WavReaderState),
      supportedSpec r.file.spec = false →
      0 < fpb * r.file.spec.channels →
      read_next_sample r = none
      ∧ (∀ fuel, read_next_sample_cycled r fuel = none)
      ∧ fill_buffer fpb r false 0 = some (([] : List ℚ), r)
      ∧ (∀ fuel, fill_buffer fpb r true fuel = none) := by
  intro fpb r h hn
  refine ⟨read_next_sample_unsupported r h,
    fun fuel => cycled_unsupported fuel r h, ?_, ?_⟩
  · simp [fill_buffer, fillNonLooped_unsupported r h]
  · intro fuel
    obtain ⟨k, hk⟩ : ∃ k, fpb * r.file.spec.channels = k + 1 :=
      ⟨fpb * r.file.spec.channels - 1, (Nat.succ_pred_eq_of_pos hn).symm⟩
    simp [fill_buffer, hk, fillLooped_unsupported r h]

/-- C7, witness: a 24-bit integer mono WAV (unsupported) with
frames-per-buffer 4: zero samples per read, the non-looping fill
returns an empty buffer, the looping fill never returns. -/
theorem unsupported_encoding_degrades_witness :
    supportedSpec r24.file.spec = false
    ∧ read_next_sample r24 = none
    ∧ (∀ fuel, read_next_sample_cycled r24 fuel = none)
    ∧ fill_buffer 4 r24 false 0 = some (([] : List ℚ), r24)
    ∧ (∀ fuel, fill_buffer 4 r24 true fuel = none) := by
  have h := unsupported_encoding_degrades 4 r24 (by decide) (by decide)
  exact ⟨by decide, h.1, h.2.1, h.2.2.1, h.2.2.2⟩

/-- C7, counterexample to the claim as stated: for a looping sound over
an unsupported encoding the fill routine does not return normally — it
never returns at all. -/
theorem looped_fill_hangs_on_unsupported :
    supportedSpec r24.file.spec = false ∧ loopedFillNeverReturns r24 4 := by
  refine ⟨by decide, ?_⟩
  intro fuel
  have h4 : (4 : Nat) = 3 + 1 := rfl
  rw [h4]
  exact fillLooped_unsupported r24 (by decide) 3 fuel

/-! ## C3 — what next_buffer sends and what it enqueues -/

/-- C3, as amended: a ProcessedBuffer(sound_id, storage) return refills
that very storage in place and enqueues it at the back of the sound's
FIFO, while the buffer delivered to the consumer in the same step is the
FIFO's front — so the returned allocation reaches the consumer again
only after the fifteen buffers queued ahead of it, not in the
immediately following delivery. -/
theorem processed_goes_to_back :
    ∀ (fpb : Nat) (m : RModel) (sid tag fuel : Nat) (sound : Sound)
      (pb : PreparedBuffer) (rest : List PreparedBuffer) (m' : RModel)
      (out : Option Buffer),
      alookup m.sounds sid = some sound →
      sound.queue = pb :: rest →
      RModel.next_buffer fpb m sid tag fuel = some (m', out) →
      out = some ⟨pb.tag, pb.samples, sid, pb.rangeStart, pb.rangeStop⟩
      ∧ ∃ s', alookup m'.sounds sid = some s'
          ∧ s'.queue.map PreparedBuffer.tag = rest.map PreparedBuffer.tag ++ [tag] := by
  intro fpb m sid tag fuel sound pb rest m' out hs hq hnb
  cases hf : fill_buffer fpb sound.reader sound.looped fuel with
  | none =>
    rw [next_buffer_refill_none fpb m sid tag fuel sound hs
      (refill_none fpb sid sound tag fuel hf)] at hnb
    cases hnb
  | some pr =>
    obtain ⟨samples, r'⟩ := pr
    have hr := refill_eq fpb sid sound tag fuel samples r' hf
    rw [nb_send_cons sid sound pb rest hq] at hr
    rw [next_buffer_refill_some fpb m sid tag fuel sound _ _ hs hr] at hnb
    simp only [Option.some.injEq, Prod.mk.injEq] at hnb
    obtain ⟨hm, hout⟩ := hnb
    subst hm
    subst hout
    exact ⟨rfl, ⟨_, alookup_aupdate_self m.sounds sid _, by simp⟩⟩

/-- C3, witness: on the 16-deep demo FIFO tagged 100..115, returning
storage 999 delivers the front (tag 100) and leaves the queue tagged
101..115 with 999 at the back. -/
theorem processed_goes_to_back_witness :
    ∃ (m' : RModel) (out : Option Buffer) (s' : Sound),
      RModel.next_buffer 1 demoRM 7 999 1 = some (m', out)
      ∧ out = some ⟨100, [0], 7, 0, 1⟩
      ∧ alookup m'.sounds 7 = some s'
      ∧ s'.queue.map PreparedBuffer.tag
          = [demoPB 1, demoPB 2, demoPB 3, demoPB 4, demoPB 5, demoPB 6,
             demoPB 7, demoPB 8, demoPB 9, demoPB 10, demoPB 11, demoPB 12,
             demoPB 13, demoPB 14, demoPB 15].map PreparedBuffer.tag ++ [999] := by
  obtain ⟨m', out, hnb⟩ :
      ∃ m' out, RModel.next_buffer 1 demoRM 7 999 1 = some (m', out) := ⟨_, _, rfl⟩
  have h := processed_goes_to_back 1 demoRM 7 999 1 demoSound (demoPB 0)
    [demoPB 1, demoPB 2, demoPB 3, demoPB 4, demoPB 5, demoPB 6, demoPB 7,
     demoPB 8, demoPB 9, demoPB 10, demoPB 11, demoPB 12, demoPB 13, demoPB 14,
     demoPB 15] m' out rfl rfl hnb
  obtain ⟨s', hs', hmap⟩ := h.2
  exact ⟨m', out, s', hnb, h.1, hs', hmap⟩

/-- C3, counterexample to the claim as stated: the buffer delivered
right after processed(7, storage 999) is backed by allocation 100 (the
FIFO front), not by the storage 999 that was just returned. -/
theorem processed_not_next_delivered :
    ((RModel.next_buffer 1 demoRM 7 999 1).map (fun p => p.2.map Buffer.tag))
      = some (some 100)
    ∧ (100 : Nat) ≠ 999 :=
  ⟨rfl, by decide⟩

/-! ## C2 — the FIFO depth invariant -/

theorem nb_preserves_len (fpb : Nat) (m : RModel) (sid tag fuel : Nat)
    (m' : RModel) (out : Option Buffer) (id : Nat) (s : Sound)
    (hnb : RModel.next_buffer fpb m sid tag fuel = some (m', out))
    (hid : alookup m.sounds id = some s) (hlen : s.queue.length = NUM_BUFFERS) :
    ∃ s', alookup m'.sounds id = some s' ∧ s'.queue.length = NUM_BUFFERS := by
  cases hsid : alookup m.sounds sid with
  | none =>
    rw [next_buffer_lookup_none fpb m sid tag fuel hsid] at hnb
    simp only [Option.some.injEq, Prod.mk.injEq] at hnb
    obtain ⟨hm, -⟩ := hnb
    subst hm
    exact ⟨s, hid, hlen⟩
  | some sound =>
    cases hf : fill_buffer fpb sound.reader sound.looped fuel with
    | none =>
      rw [next_buffer_refill_none fpb m sid tag fuel sound hsid
        (refill_none fpb sid sound tag fuel hf)] at hnb
      cases hnb
    | some pr =>
      obtain ⟨samples, r'⟩ := pr
      have hr := refill_eq fpb sid sound tag fuel samples r' hf
      rw [next_buffer_refill_some fpb m sid tag fuel sound _ _ hsid hr] at hnb
      simp only [Option.some.injEq, Prod.mk.injEq] at hnb
      obtain ⟨hm, -⟩ := hnb
      subst hm
      by_cases hide : id = sid
      · subst hide
        rw [hid] at hsid
        injection hsid with hss
        subst hss
        refine ⟨_, alookup_aupdate_self m.sounds id _, ?_⟩
        cases hq : s.queue with
        | nil =>
          rw [hq] at hlen
          exact absurd hlen (by simp [NUM_BUFFERS])
        | cons pb rest =>
          rw [hq] at hlen
          simp only [List.length_cons] at hlen
          simp [nb_send_cons id s pb rest hq]
          omega
      · refine ⟨s, ?_, hlen⟩
        rw [alookup_aupdate_ne m.sounds sid id _ hide]
        exact hid

theorem processed_fold_preserves_len (fpb fuel sid : Nat) :
    ∀ (msgs : List (Nat × Nat)) (m m' : RModel),
      processed_fold fpb m msgs fuel = some m' →
      (∃ s, alookup m.sounds sid = some s ∧ s.queue.length = NUM_BUFFERS) →
      ∃ s', alookup m'.sounds sid = some s' ∧ s'.queue.length = NUM_BUFFERS := by
  intro msgs
  induction msgs with
  | nil =>
    intro m m' h hex
    simp only [processed_fold, Option.some.injEq] at h
    subst h
    exact hex
  | cons p rest ih =>
    intro m m' h hex
    obtain ⟨id0, tag0⟩ := p
    cases hnb : RModel.next_buffer fpb m id0 tag0 fuel with
    | none =>
      simp only [processed_fold, hnb] at h
      exact Option.noConfusion h
    | some q =>
      obtain ⟨m1, out⟩ := q
      simp only [processed_fold, hnb] at h
      obtain ⟨s, hs, hl⟩ := hex
      exact ih m1 m' h (nb_preserves_len fpb m id0 tag0 fuel m1 out sid s hnb hs hl)

theorem prepare_buffers_length (fpb : Nat) :
    ∀ (n : Nat) (r : WavReaderState) (looped : Bool) (tag0 fuel : Nat)
      (bufs : List PreparedBuffer) (r' : WavReaderState),
      prepare_buffers fpb r looped tag0 n fuel = some (bufs, r') →
      bufs.length = n := by
  intro n
  induction n with
  | zero =>
    intro r looped tag0 fuel bufs r' h
    simp only [prepare_buffers, Option.some.injEq, Prod.mk.injEq] at h
    rw [← h.1]
    rfl
  | succ k ih =>
    intro r looped tag0 fuel bufs r' h
    cases hf : fill_buffer fpb r looped fuel with
    | none =>
      simp only [prepare_buffers, hf] at h
      exact Option.noConfusion h
    | some pr =>
      obtain ⟨samples, r1⟩ := pr
      simp only [prepare_buffers, hf, Option.map_eq_some'] at h
      obtain ⟨⟨bufs1, r2⟩, hrec, hp⟩ := h
      obtain ⟨hb, -⟩ := Prod.mk.injEq .. ▸ hp
      rw [← hb]
      simp [ih r1 looped (tag0 + 1) fuel bufs1 r2 hrec]

theorem send_initial_preserves (fpb fuel sid : Nat) :
    ∀ (n : Nat) (m : RModel) (tag0 : Nat) (m' : RModel) (sent : List Buffer),
      send_initial fpb m sid tag0 n fuel = some (m', sent) →
      (∃ s, alookup m.sounds sid = some s ∧ s.queue.length = NUM_BUFFERS) →
      ∃ s', alookup m'.sounds sid = some s' ∧ s'.queue.length = NUM_BUFFERS := by
  intro n
  induction n with
  | zero =>
    intro m tag0 m' sent h hex
    simp only [send_initial, Option.some.injEq, Prod.mk.injEq] at h
    rw [← h.1]
    exact hex
  | succ k ih =>
    intro m tag0 m' sent h hex
    cases hnb : RModel.next_buffer fpb m sid tag0 fuel with
    | none =>
      simp only [send_initial, hnb] at h
      exact Option.noConfusion h
    | some q =>
      obtain ⟨m1, out⟩ := q
      simp only [send_initial, hnb, Option.map_eq_some'] at h
      obtain ⟨⟨m2, sent2⟩, hrec, hp⟩ := h
      obtain ⟨hm, -⟩ := Prod.mk.injEq .. ▸ hp
      obtain ⟨s, hs, hl⟩ := hex
      rw [← hm]
      exact ih m1 (tag0 + 1) m2 sent2 hrec
        (nb_preserves_len fpb m sid tag0 fuel m1 out sid s hnb hs hl)

theorem play_sound_establishes (fpb : Nat) (m : RModel) (sid : Nat)
    (file : WavFile) (start : Nat) (looped : Bool) (tag0 fuel : Nat)
    (m1 : RModel) (sent : List Buffer)
    (h : RModel.play_sound fpb m sid file start looped tag0 fuel = some (m1, sent)) :
    ∃ s, alookup m1.sounds sid = some s ∧ s.queue.length = NUM_BUFFERS := by
  cases hseek : seek_to_start file start with
  | none =>
    simp only [RModel.play_sound, hseek] at h
    exact Option.noConfusion h
  | some r0 =>
    cases hprep : prepare_buffers fpb r0 looped tag0 NUM_BUFFERS fuel with
    | none =>
      simp only [RModel.play_sound, hseek, hprep] at h
      exact Option.noConfusion h
    | some pr =>
      obtain ⟨bufs, r1⟩ := pr
      simp only [RModel.play_sound, hseek, hprep] at h
      exact send_initial_preserves fpb fuel sid NUM_BUFFERS _ _ m1 sent h
        ⟨{ reader := r1, queue := bufs, looped := looped },
         alookup_aupdate_self m.sounds sid _,
         prepare_buffers_length fpb NUM_BUFFERS r0 looped tag0 fuel bufs r1 hprep⟩

/-- C2 (confirmed): once play_sound has completed its initial fill the
sound's prepared-buffer FIFO holds exactly NUM_BUFFERS = 16 buffers, and
it still does after any sequence of ProcessedBuffer returns processed by
next_buffer (each pops exactly the front for sending and pushes exactly
one refilled buffer at the back), as long as every return reaches the
worker (the hypotheses say play_sound and each fold step completed, i.e.
no fill error killed the thread). -/
theorem fifo_depth_sixteen (fpb : Nat) (m : RModel) (sid : Nat) (file : WavFile)
    (start : Nat) (looped : Bool) (tag0 fuel : Nat) (msgs : List (Nat × Nat))
    (m1 : RModel) (sent : List Buffer) (m2 : RModel)
    (hplay : RModel.play_sound fpb m sid file start looped tag0 fuel = some (m1, sent))
    (hfold : processed_fold fpb m1 msgs fuel = some m2) :
    queueLen m1 sid = some NUM_BUFFERS ∧ queueLen m2 sid = some NUM_BUFFERS := by
  obtain ⟨s1, hs1, hl1⟩ := play_sound_establishes fpb m sid file start looped
    tag0 fuel m1 sent hplay
  obtain ⟨s2, hs2, hl2⟩ := processed_fold_preserves_len fpb fuel sid msgs m1 m2
    hfold ⟨s1, hs1, hl1⟩
  constructor
  · rw [queueLen, hs1]
    simp [hl1]
  · rw [queueLen, hs2]
    simp [hl2]

/-- C2, witness: a mono one-frame file, frames-per-buffer 1: after
play_sound the FIFO depth is 16, and it is still 16 after two processed
returns (one of them alongside a return for an unknown sound id, which
is discarded). -/
theorem fifo_depth_sixteen_witness :
    ((RModel.play_sound 1 ⟨[]⟩ 1 demoFile 0 false 0 1).map
        (fun p => queueLen p.1 1)) = some (some NUM_BUFFERS)
    ∧ (((RModel.play_sound 1 ⟨[]⟩ 1 demoFile 0 false 0 1).bind
        (fun p => processed_fold 1 p.1 [(1, 50), (9, 77), (1, 51)] 1)).map
        (fun m2 => queueLen m2 1)) = some (some NUM_BUFFERS) := by
  rcases hp : RModel.play_sound 1 ⟨[]⟩ 1 demoFile 0 false 0 1 with _ | ⟨m1, sent⟩
  · exact absurd hp (by decide)
  · rcases hf : processed_fold 1 m1 [(1, 50), (9, 77), (1, 51)] 1 with _ | m2
    · exfalso
      have hcomp : ((RModel.play_sound 1 ⟨[]⟩ 1 demoFile 0 false 0 1).bind
          (fun p => processed_fold 1 p.1 [(1, 50), (9, 77), (1, 51)] 1)) ≠ none := by
        decide
      rw [hp] at hcomp
      simp only [Option.some_bind] at hcomp
      exact hcomp hf
    · have h := fifo_depth_sixteen 1 ⟨[]⟩ 1 demoFile 0 false 0 1
        [(1, 50), (9, 77), (1, 51)] m1 sent m2 hp hf
      simp only [Option.map_some', Option.some_bind, hf, h.1, h.2]
      exact ⟨trivial, trivial⟩

/-! ## C9 — DBAP gains: proportional powers, normalised total -/

theorem list_sum_pos_of_mem (l : List ℚ) (x : ℚ) (hx : x ∈ l) (hxpos : 0 < x)
    (hnn : ∀ y ∈ l, 0 ≤ y) : 0 < l.sum := by
  induction l with
  | nil => cases hx
  | cons a rest ih =>
    rw [List.sum_cons]
    rcases List.mem_cons.mp hx with h | h
    · subst h
      exact add_pos_of_pos_of_nonneg hxpos
        (List.sum_nonneg (fun y hy => hnn y (List.mem_cons_of_mem _ hy)))
    · exact add_pos_of_nonneg_of_pos (hnn a (List.mem_cons_self a rest))
        (ih h (fun y hy => hnn y (List.mem_cons_of_mem a hy)))

theorem list_map_div_sum (l : List ℚ) (c : ℚ) :
    (l.map (fun x => x / c)).sum = l.sum / c := by
  induction l with
  | nil => simp
  | cons a rest ih => simp [ih, add_div]

theorem blurred_distance_2_pos (p q : ℚ × ℚ) (blur : ℚ) (hblur : blur ≠ 0) :
    0 < blurred_distance_2 p q blur := by
  have h2 : 0 < blur ^ 2 :=
    lt_of_le_of_ne (sq_nonneg blur) (Ne.symm (pow_ne_zero 2 hblur))
  have h1 : 0 ≤ (p.1 - q.1) ^ 2 + (p.2 - q.2) ^ 2 :=
    add_nonneg (sq_nonneg _) (sq_nonneg _)
  unfold blurred_distance_2
  linarith

theorem speaker_power_nonneg (a : Nat) (s : DbapSpeaker) (hd : 0 < s.distance) :
    0 ≤ speaker_power a s :=
  div_nonneg (sq_nonneg _) (le_of_lt (pow_pos hd a))

/-- C9 (confirmed against the spec-modelled DBAP arithmetic; the
audio::dbap module is not among the given sources): for every channel
position, layout, zone assignment and rolloff exponent, as long as the
blur constant is nonzero and some speaker carries nonzero weight, each
speaker's squared gain multiplied by the total power equals its raw
power weight²/blurred_distance²ᵃ (gains proportional to
weight/blurred_distanceᵃ), the total power is positive, and the squared
gains sum to exactly 1 — bounded independently of the channel's
position. -/
theorem dbap_gains_normalized (p : ℚ × ℚ) (zones : List Nat)
    (layout : List ((ℚ × ℚ) × List Nat)) (blur : ℚ) (a : Nat)
    (hblur : blur ≠ 0)
    (hz : ∃ sp ∈ layout, dbap_weight zones sp.2 ≠ 0) :
    0 < total_power a (mk_dbap_speakers p zones layout blur)
    ∧ (speaker_gains_2 a (mk_dbap_speakers p zones layout blur)).sum = 1
    ∧ ∀ s ∈ mk_dbap_speakers p zones layout blur,
        speaker_power a s / total_power a (mk_dbap_speakers p zones layout blur)
          * total_power a (mk_dbap_speakers p zones layout blur)
          = speaker_power a s := by
  have hdist : ∀ s ∈ mk_dbap_speakers p zones layout blur, 0 < s.distance := by
    intro s hs
    obtain ⟨sp, -, rfl⟩ := List.mem_map.mp hs
    exact blurred_distance_2_pos p sp.1 blur hblur
  have hnn : ∀ y ∈ (mk_dbap_speakers p zones layout blur).map (speaker_power a),
      0 ≤ y := by
    intro y hy
    obtain ⟨s, hs, rfl⟩ := List.mem_map.mp hy
    exact speaker_power_nonneg a s (hdist s hs)
  obtain ⟨sp, hsp, hw⟩ := hz
  have hmem : (⟨blurred_distance_2 p sp.1 blur, dbap_weight zones sp.2⟩ : DbapSpeaker)
      ∈ mk_dbap_speakers p zones layout blur :=
    List.mem_map.mpr ⟨sp, hsp, rfl⟩
  have hppos : 0 < speaker_power a ⟨blurred_distance_2 p sp.1 blur, dbap_weight zones sp.2⟩ := by
    refine div_pos ?_ (pow_pos (blurred_distance_2_pos p sp.1 blur hblur) a)
    exact lt_of_le_of_ne (sq_nonneg _) (Ne.symm (pow_ne_zero 2 hw))
  have htot : 0 < total_power a (mk_dbap_speakers p zones layout blur) := by
    unfold total_power
    exact list_sum_pos_of_mem _ _ (List.mem_map_of_mem (speaker_power a) hmem)
      hppos hnn
  refine ⟨htot, ?_, ?_⟩
  · unfold speaker_gains_2
    rw [show (mk_dbap_speakers p zones layout blur).map
        (fun s => speaker_power a s / total_power a (mk_dbap_speakers p zones layout blur))
      = ((mk_dbap_speakers p zones layout blur).map (speaker_power a)).map
        (fun x => x / total_power a (mk_dbap_speakers p zones layout blur)) by
      rw [List.map_map]; rfl]
    rw [list_map_div_sum]
    exact div_self (ne_of_gt htot)
  · intro s hs
    exact div_mul_cancel₀ (speaker_power a s) (ne_of_gt htot)

/-- C9, witness: channel at the origin targeting zone 1, two speakers
(one serving zone 1 at distance 5, one serving only zone 2), blur 1,
exponent 1: total power is positive, the squared gains sum to 1, and
each squared gain times the total equals the speaker's raw power. -/
theorem dbap_gains_normalized_witness :
    0 < total_power 1 (mk_dbap_speakers (0, 0) [1] demoLayout 1)
    ∧ (speaker_gains_2 1 (mk_dbap_speakers (0, 0) [1] demoLayout 1)).sum = 1
    ∧ ∀ s ∈ mk_dbap_speakers (0, 0) [1] demoLayout 1,
        speaker_power 1 s / total_power 1 (mk_dbap_speakers (0, 0) [1] demoLayout 1)
          * total_power 1 (mk_dbap_speakers (0, 0) [1] demoLayout 1)
          = speaker_power 1 s := by
  refine dbap_gains_normalized (0, 0) [1] demoLayout 1 1 (by norm_num) ?_
  refine ⟨((3, 4), [1]), ?_, ?_⟩
  · simp [demoLayout]
  · norm_num [dbap_weight]

end SpatialAudio
